import Mathlib

/-!
Shallow embedding of the analytical core of the G-League scouting platform
(pages/3_Player_Profiles.py, pages/2_Player_Search.py and the near-duplicate
g_league_dbt/streamlit_app/pages/page_player.py): the percentile engine, the
min/mean/max normalization engine behind the radar chart, the league ranking
engine, the SQL classification rules, and the CSV-export rounding.

Numeric columns are modelled over ℚ.  A pandas float64 column may hold NaN
(null) entries; a cell is therefore `Option ℚ`, with `none` playing the role
of NaN.  numpy comparison semantics (`NaN < x` is false, `NaN == NaN` is
false) are reproduced explicitly where the source relies on them.
-/

/-! ## Percentile engine

`calculate_advanced_metrics` (pages/3_Player_Profiles.py, lines 221-223)
computes, for each statistic column,
`(league_stats[col] < player_stats[col]).mean() * 100`. -/

/-- Models the numpy/pandas elementwise `<` on float64 cells: any comparison
involving NaN (here `none`) is `false`. -/
def serLt : Option ℚ → Option ℚ → Bool
  | some a, some b => decide (a < b)
  | _, _ => false

/-- Embeds `(league_stats[col] < v).mean() * 100` from
`calculate_advanced_metrics`: the mean of a boolean series is
(count of `true`) / (series length), and the mean of an empty series is NaN,
modelled as `none`. -/
def percentileOf (pop : List (Option ℚ)) (v : Option ℚ) : Option ℚ :=
  if pop.isEmpty then none
  else some (((pop.countP (fun w => serLt w v) : ℚ) / (pop.length : ℚ)) * 100)

/-- Written from the spec's words (§4.1), for the refinement claim C1:
`percentile(subject) = 100 * (count of population members whose statistic
value is strictly less than the subject's value) / (group size)`. -/
def specPercentile (vals : List ℚ) (v : ℚ) : ℚ :=
  100 * (vals.countP (fun w => decide (w < v)) : ℚ) / (vals.length : ℚ)

/-! ## Normalization engine

`normalize_to_scale` (pages/3_Player_Profiles.py, lines 63-73), and the five
radar-chart dimensions built from it in `create_radar_chart`
(lines 76-115). -/

/-- Direct translation of `normalize_to_scale` (lines 63-73): 0-100 scale
where 50 is the league average, with the source's two conditional-expression
guards against a zero denominator. -/
def normalize_to_scale (player_val min_val avg_val max_val : ℚ) : ℚ :=
  if max_val = min_val then 50
  else
    if player_val ≤ avg_val then
      if avg_val ≠ min_val then 50 * (player_val - min_val) / (avg_val - min_val) else 50
    else
      if max_val ≠ avg_val then 50 + 50 * (player_val - avg_val) / (max_val - avg_val) else 50

/-- `Series.min()` of a non-empty column; 0 is a junk value for the empty
list, which every caller guards against (pandas would give NaN). -/
def listMin : List ℚ → ℚ
  | [] => 0
  | x :: xs => xs.foldl min x

/-- `Series.max()` of a non-empty column; junk 0 on the empty list. -/
def listMax : List ℚ → ℚ
  | [] => 0
  | x :: xs => xs.foldl max x

/-- `Series.mean()` of a non-empty column; on the empty list ℚ gives 0/0 = 0,
a junk value every caller guards against (pandas would give NaN). -/
def listMean (l : List ℚ) : ℚ := l.sum / (l.length : ℚ)

/-- One row of `player_stats_gold` as used by the radar chart and the
advanced-metrics block. -/
structure StatRow where
  points_per_game : ℚ
  rebounds_per_game : ℚ
  assists_per_game : ℚ
  games_played : ℚ
  total_points : ℚ
  total_rebounds : ℚ
  total_assists : ℚ

/-- Scoring dimension of `create_radar_chart` (lines 76-81). -/
def scoringScore (p : StatRow) (league : List StatRow) : ℚ :=
  let col := league.map StatRow.points_per_game
  normalize_to_scale p.points_per_game (listMin col) (listMean col) (listMax col)

/-- Rebounding dimension (lines 83-88). -/
def reboundingScore (p : StatRow) (league : List StatRow) : ℚ :=
  let col := league.map StatRow.rebounds_per_game
  normalize_to_scale p.rebounds_per_game (listMin col) (listMean col) (listMax col)

/-- Playmaking dimension (lines 90-95). -/
def playmakingScore (p : StatRow) (league : List StatRow) : ℚ :=
  let col := league.map StatRow.assists_per_game
  normalize_to_scale p.assists_per_game (listMin col) (listMean col) (listMax col)

/-- The availability dimension's max anchor,
`min(league_stats['games_played'].max(), 82)` (line 101). -/
def availabilityMaxAnchor (league : List StatRow) : ℚ :=
  min (listMax (league.map StatRow.games_played)) 82

/-- Availability dimension (lines 97-102): games played against league
min/mean and the 82-game-capped max. -/
def availabilityScore (p : StatRow) (league : List StatRow) : ℚ :=
  let col := league.map StatRow.games_played
  normalize_to_scale p.games_played (listMin col) (listMean col) (availabilityMaxAnchor league)

/-- `total_points + total_rebounds + total_assists` (lines 105-106). -/
def production (p : StatRow) : ℚ :=
  p.total_points + p.total_rebounds + p.total_assists

/-- Production dimension (lines 108-113). -/
def productionScore (p : StatRow) (league : List StatRow) : ℚ :=
  let col := league.map production
  normalize_to_scale (production p) (listMin col) (listMean col) (listMax col)

/-- The five radar values `[scoring, rebounding, playmaking, availability,
production]` of `create_radar_chart` (line 115).  On an empty league the
pandas aggregates are all NaN and NaN propagates through
`normalize_to_scale`, so every dimension is NaN: modelled as `none`. -/
def radarValues (p : StatRow) (league : List StatRow) : Option (List ℚ) :=
  if league.isEmpty then none
  else some [scoringScore p league, reboundingScore p league, playmakingScore p league,
             availabilityScore p league, productionScore p league]

/-! ## Ranking engine

`season_stats['points_per_game'].rank(ascending=False)` (pages/3_Player_Profiles.py,
lines 425-434; identically in page_player.py lines 380-383).  pandas defaults:
`method='average'` (tied values share the mean of the ordinal ranks they
occupy) and `na_option='keep'` (NaN rows are ranked NaN and are not counted
when ranking the others).  The displayed rank is `int(rank)` — truncation. -/

/-- Closed form of the `method='average'`, `ascending=False` rank of value
`x` within the column `pop`: (count of strictly greater non-null values) +
((count of non-null values equal to `x`) + 1) / 2.  Null entries are dropped
(`na_option='keep'`). -/
def rankDesc (pop : List (Option ℚ)) (x : ℚ) : ℚ :=
  ((pop.filterMap id).countP (fun w => decide (x < w)) : ℚ) +
    (((pop.filterMap id).countP (fun w => decide (w = x)) : ℚ) + 1) / 2

/-- Rank of one cell: a NaN cell keeps a NaN rank (`na_option='keep'`). -/
def rankOf (pop : List (Option ℚ)) : Option ℚ → Option ℚ
  | none => none
  | some x => some (rankDesc pop x)

/-- `int(rank)` as displayed in the "League Rankings" metrics: Python `int()`
truncates toward zero, which on the positive rank values is the floor. -/
def displayedRank (r : ℚ) : ℤ := ⌊r⌋

/-- The whole rank column `season_stats[col].rank(ascending=False)`. -/
def rankColumnDesc (pop : List (Option ℚ)) : List (Option ℚ) :=
  pop.map (rankOf pop)

/-! ## Classification engine

The `final_classification` CASE expression of the BigQuery query in
`load_player_data` (pages/2_Player_Search.py, lines 87-101). -/

/-- The columns of one row of `player_percentiles` that the CASE expression
reads.  `NTILE(100)` percentiles are integers. -/
structure CandidateRow where
  pts_percentile : ℤ
  trb_percentile : ℤ
  ast_percentile : ℤ
  ts_percentile : ℤ
  contract_status : String
  age : ℤ

/-- The availability set of the CASE expression (lines 91 and 95). -/
def availableStatuses : List String :=
  ["Free Agent / No Contract Data", "Expiring Contract", "Uncontracted", "Free Agent"]

/-- SQL `x BETWEEN lo AND hi`. -/
def sqlBetween (x lo hi : ℤ) : Bool :=
  decide (lo ≤ x) && decide (x ≤ hi)

/-- First WHEN condition (lines 90-92): some volume percentile in [0,25],
available contract status, age ≤ 28. -/
def strugglingRule (s : CandidateRow) : Bool :=
  (sqlBetween s.pts_percentile 0 25 || sqlBetween s.trb_percentile 0 25 ||
      sqlBetween s.ast_percentile 0 25) &&
    availableStatuses.contains s.contract_status && decide (s.age ≤ 28)

/-- Second WHEN condition (lines 94-96): all four percentiles in [25,75],
same availability and age conditions. -/
def wellRoundedRule (s : CandidateRow) : Bool :=
  (sqlBetween s.pts_percentile 25 75 && sqlBetween s.trb_percentile 25 75 &&
      sqlBetween s.ast_percentile 25 75 && sqlBetween s.ts_percentile 25 75) &&
    availableStatuses.contains s.contract_status && decide (s.age ≤ 28)

/-- The CASE expression (lines 89-99): SQL CASE evaluates its WHEN branches
in order and returns the THEN of the first one that is true, else the ELSE
label. -/
def g_league_category (s : CandidateRow) : String :=
  if strugglingRule s then "NBA Struggling / G-League Potential"
  else if wellRoundedRule s then "Well-Rounded Average"
  else "Not G-League Target"

/-- The classification engine applied to a whole population: SQL computes
the CASE per row, so an empty table yields an empty result set. -/
def classifyAll (rows : List CandidateRow) : List String :=
  rows.map g_league_category

/-! ## CSV export rounding

`display_df.round({'mp': 1, 'pts': 1, 'trb': 1, 'ast': 1, 'ts_pct': 3,
'pts_percentile': 0, 'trb_percentile': 0, 'ast_percentile': 0})` followed by
`display_df.to_csv(...)` (pages/2_Player_Search.py, lines 332-336 and
434-441).  pandas `round` is decimal rounding with ties to even; modelled
exactly over ℚ. -/

/-- Numeric fields of `display_df` touched by the export (the remaining
display columns are strings, plus the integer `Age`). -/
structure DisplayRow where
  Age : ℤ
  mp : ℚ
  pts : ℚ
  trb : ℚ
  ast : ℚ
  ts_pct : ℚ
  pts_percentile : ℚ
  trb_percentile : ℚ
  ast_percentile : ℚ

/-- Round to the nearest integer, ties to even (numpy/pandas rounding). -/
def rheInt (x : ℚ) : ℤ :=
  if x - ⌊x⌋ < 1 / 2 then ⌊x⌋
  else if 1 / 2 < x - ⌊x⌋ then ⌊x⌋ + 1
  else if ⌊x⌋ % 2 = 0 then ⌊x⌋ else ⌊x⌋ + 1

/-- Round to `d` decimal places, ties to even. -/
def roundTo (d : ℕ) (x : ℚ) : ℚ :=
  (rheInt (x * 10 ^ d) : ℚ) / 10 ^ d

/-- The `display_df.round({...})` dictionary applied to one row (line 333):
volume per-game statistics to 1 decimal, true-shooting to 3, percentiles to
0; `Age` is not in the dictionary and passes through unchanged. -/
def exportRound (r : DisplayRow) : DisplayRow :=
  { r with
    mp := roundTo 1 r.mp
    pts := roundTo 1 r.pts
    trb := roundTo 1 r.trb
    ast := roundTo 1 r.ast
    ts_pct := roundTo 3 r.ts_pct
    pts_percentile := roundTo 0 r.pts_percentile
    trb_percentile := roundTo 0 r.trb_percentile
    ast_percentile := roundTo 0 r.ast_percentile }

/-! ## Helper lemmas about the normalization engine -/

lemma normalize_left (v mn μ mx : ℚ) (h1 : mn < μ) (h2 : μ < mx) (hv : v ≤ μ) :
    normalize_to_scale v mn μ mx = 50 * (v - mn) / (μ - mn) := by
  unfold normalize_to_scale
  rw [if_neg (by intro h; rw [h] at h2; exact absurd (h1.trans h2) (lt_irrefl mn)),
    if_pos hv, if_pos (ne_of_gt h1)]

lemma normalize_right (v mn μ mx : ℚ) (h1 : mn < μ) (h2 : μ < mx) (hv : ¬ v ≤ μ) :
    normalize_to_scale v mn μ mx = 50 + 50 * (v - μ) / (mx - μ) := by
  unfold normalize_to_scale
  rw [if_neg (by intro h; rw [h] at h2; exact absurd (h1.trans h2) (lt_irrefl mn)),
    if_neg hv, if_pos (ne_of_gt h2)]

lemma normalize_nonneg (v mn μ mx : ℚ) (h1 : mn < μ) (h2 : μ < mx) (hlo : mn ≤ v) :
    0 ≤ normalize_to_scale v mn μ mx := by
  by_cases hv : v ≤ μ
  · rw [normalize_left v mn μ mx h1 h2 hv]
    exact div_nonneg (by linarith) (by linarith)
  · rw [normalize_right v mn μ mx h1 h2 hv]
    push_neg at hv
    have : 0 ≤ 50 * (v - μ) / (mx - μ) := div_nonneg (by linarith) (by linarith)
    linarith

lemma normalize_le_100 (v mn μ mx : ℚ) (h1 : mn < μ) (h2 : μ < mx) (hhi : v ≤ mx) :
    normalize_to_scale v mn μ mx ≤ 100 := by
  by_cases hv : v ≤ μ
  · rw [normalize_left v mn μ mx h1 h2 hv]
    have h : (v - mn) / (μ - mn) ≤ 1 := (div_le_one (by linarith)).2 (by linarith)
    rw [mul_div_assoc]
    nlinarith
  · rw [normalize_right v mn μ mx h1 h2 hv]
    have h : (v - μ) / (mx - μ) ≤ 1 := (div_le_one (by linarith)).2 (by linarith)
    rw [mul_div_assoc]
    nlinarith

lemma normalize_at_mean (mn μ mx : ℚ) (h1 : mn < μ) (h2 : μ < mx) :
    normalize_to_scale μ mn μ mx = 50 := by
  rw [normalize_left μ mn μ mx h1 h2 le_rfl, mul_div_assoc,
    div_self (by linarith), mul_one]

lemma normalize_at_min (mn μ mx : ℚ) (h1 : mn < μ) (h2 : μ < mx) :
    normalize_to_scale mn mn μ mx = 0 := by
  rw [normalize_left mn mn μ mx h1 h2 h1.le, sub_self, mul_zero, zero_div]

lemma normalize_at_max (mn μ mx : ℚ) (h1 : mn < μ) (h2 : μ < mx) :
    normalize_to_scale mx mn μ mx = 100 := by
  rw [normalize_right mx mn μ mx h1 h2 (by linarith), mul_div_assoc,
    div_self (by linarith), mul_one]
  norm_num

lemma normalize_gt_100 (v mn μ mx : ℚ) (h1 : mn < μ) (h2 : μ < mx) (hv : mx < v) :
    100 < normalize_to_scale v mn μ mx := by
  rw [normalize_right v mn μ mx h1 h2 (by linarith)]
  have h : 1 < (v - μ) / (mx - μ) := (one_lt_div (by linarith)).2 (by linarith)
  rw [mul_div_assoc]
  nlinarith

lemma normalize_neg (v mn μ mx : ℚ) (h1 : mn < μ) (h2 : μ < mx) (hv : v < mn) :
    normalize_to_scale v mn μ mx < 0 := by
  rw [normalize_left v mn μ mx h1 h2 (by linarith)]
  exact div_neg_of_neg_of_pos (by linarith) (by linarith)

lemma normalize_self_anchors (a b : ℚ) : normalize_to_scale a a a b = 50 := by
  unfold normalize_to_scale
  by_cases h : b = a <;> simp [h]

lemma listMin_singleton (x : ℚ) : listMin [x] = x := rfl

lemma listMax_singleton (x : ℚ) : listMax [x] = x := rfl

lemma listMean_singleton (x : ℚ) : listMean [x] = x := by
  simp [listMean]

/-! ## Helper lemmas about the percentile and ranking engines -/

lemma serLt_none_right (w : Option ℚ) : serLt w none = false := by
  cases w <;> rfl

lemma countP_serLt_filterMap (pop : List (Option ℚ)) (v : ℚ) :
    pop.countP (fun w => serLt w (some v)) =
      (pop.filterMap id).countP (fun w => decide (w < v)) := by
  induction pop with
  | nil => rfl
  | cons x xs ih =>
    cases x with
    | none =>
      have hx : serLt none (some v) = false := rfl
      simp [List.countP_cons, List.filterMap_cons, hx, ih]
    | some a =>
      have hx : serLt (some a) (some v) = decide (a < v) := rfl
      simp [List.countP_cons, List.filterMap_cons, hx, ih]

lemma length_filterMap_of_nonnull (pop : List (Option ℚ)) (h : ∀ x ∈ pop, x ≠ none) :
    (pop.filterMap id).length = pop.length := by
  induction pop with
  | nil => rfl
  | cons x xs ih =>
    cases x with
    | none => exact absurd rfl (h none (List.mem_cons_self none xs))
    | some a =>
      simp only [List.filterMap_cons, id, List.length_cons]
      rw [ih (fun y hy => h y (List.mem_cons_of_mem _ hy))]

lemma countP_lt_add_countP_eq (vals : List ℚ) (m : ℚ) (h : ∀ w ∈ vals, w ≤ m) :
    vals.countP (fun w => decide (w < m)) + vals.countP (fun w => decide (w = m)) =
      vals.length := by
  induction vals with
  | nil => rfl
  | cons a l ih =>
    have ha := h a (List.mem_cons_self a l)
    have ihl := ih (fun y hy => h y (List.mem_cons_of_mem _ hy))
    rcases lt_or_eq_of_le ha with hlt | heq
    · simp [List.countP_cons, hlt, ne_of_lt hlt]
      omega
    · simp [List.countP_cons, heq]
      omega

lemma countP_lt_self_length (pop : List (Option ℚ)) (v : ℚ) (hmem : some v ∈ pop) :
    pop.countP (fun w => serLt w (some v)) < pop.length := by
  induction pop with
  | nil => cases hmem
  | cons x xs ih =>
    have hcons : List.countP (fun w => serLt w (some v)) (x :: xs) =
        List.countP (fun w => serLt w (some v)) xs + if serLt x (some v) then 1 else 0 := by
      simp [List.countP_cons]
    have hle : List.countP (fun w => serLt w (some v)) xs ≤ xs.length :=
      List.countP_le_length _
    rcases List.mem_cons.1 hmem with hx | hx
    · have hself : serLt (some v) (some v) = false := by simp [serLt]
      subst hx
      rw [hcons, hself, List.length_cons]
      simp only [Bool.false_eq_true, if_false]
      omega
    · have hlt := ih hx
      have hone : (if serLt x (some v) then 1 else 0) ≤ 1 := by
        split <;> omega
      rw [hcons, List.length_cons]
      omega

/-! ## Claims -/

/-- C1: on a non-empty population with no null values for the statistic, the
percentile computed by `calculate_advanced_metrics` is
`100 * (count of population members with value strictly less than the
subject's) / (population size)` — the spec's formula `specPercentile`; in
particular, on the population {10, 20, 30} the three subjects receive 0,
100/3 = 33.3... and 200/3 = 66.7... respectively. -/
theorem C1_percentile_formula (pop : List (Option ℚ)) (v : ℚ)
    (hne : pop ≠ []) (hnn : ∀ x ∈ pop, x ≠ none) :
    percentileOf pop (some v) = some (specPercentile (pop.filterMap id) v) ∧
    (percentileOf [some 10, some 20, some 30] (some 10) = some 0 ∧
     percentileOf [some 10, some 20, some 30] (some 20) = some (100 / 3) ∧
     percentileOf [some 10, some 20, some 30] (some 30) = some (200 / 3)) := by
  have hemp : pop.isEmpty = false := by
    cases pop with
    | nil => exact absurd rfl hne
    | cons a l => rfl
  refine ⟨?_, ?_, ?_, ?_⟩
  · unfold percentileOf specPercentile
    rw [countP_serLt_filterMap, length_filterMap_of_nonnull pop hnn]
    simp only [hemp, Bool.false_eq_true, if_false]
    congr 1
    ring
  · norm_num [percentileOf, serLt, List.countP_cons, List.countP_nil]
  · norm_num [percentileOf, serLt, List.countP_cons, List.countP_nil]
  · norm_num [percentileOf, serLt, List.countP_cons, List.countP_nil]

/-- Witness for C1 at the concrete population {10, 20, 30} and subject 20. -/
theorem C1_percentile_witness :
    percentileOf [some 10, some 20, some 30] (some 20) =
      some (specPercentile (List.filterMap id [some 10, some 20, some 30]) 20) :=
  (C1_percentile_formula [some 10, some 20, some 30] 20 (by simp) (by simp)).1

/-- C2: for a population whose min, mean and max satisfy min < mean < max and
a subject value v with min ≤ v ≤ max, `normalize_to_scale` returns
`50 * (v - min) / (mean - min)` when v ≤ mean and
`50 + 50 * (v - mean) / (max - mean)` otherwise; the result is in [0,100],
is exactly 50 at the mean, 0 at the min and 100 at the max. -/
theorem C2_normalization_engine (pop : List ℚ) (v : ℚ)
    (h1 : listMin pop < listMean pop) (h2 : listMean pop < listMax pop)
    (hlo : listMin pop ≤ v) (hhi : v ≤ listMax pop) :
    normalize_to_scale v (listMin pop) (listMean pop) (listMax pop) =
      (if v ≤ listMean pop then 50 * (v - listMin pop) / (listMean pop - listMin pop)
       else 50 + 50 * (v - listMean pop) / (listMax pop - listMean pop)) ∧
    0 ≤ normalize_to_scale v (listMin pop) (listMean pop) (listMax pop) ∧
    normalize_to_scale v (listMin pop) (listMean pop) (listMax pop) ≤ 100 ∧
    (v = listMean pop →
      normalize_to_scale v (listMin pop) (listMean pop) (listMax pop) = 50) ∧
    (v = listMin pop →
      normalize_to_scale v (listMin pop) (listMean pop) (listMax pop) = 0) ∧
    (v = listMax pop →
      normalize_to_scale v (listMin pop) (listMean pop) (listMax pop) = 100) := by
  refine ⟨?_, normalize_nonneg v _ _ _ h1 h2 hlo, normalize_le_100 v _ _ _ h1 h2 hhi,
    ?_, ?_, ?_⟩
  · by_cases hv : v ≤ listMean pop
    · rw [normalize_left v _ _ _ h1 h2 hv, if_pos hv]
    · rw [normalize_right v _ _ _ h1 h2 hv, if_neg hv]
  · intro h; subst h; exact normalize_at_mean _ _ _ h1 h2
  · intro h; subst h; exact normalize_at_min _ _ _ h1 h2
  · intro h; subst h; exact normalize_at_max _ _ _ h1 h2

/-- Witness for C2 at the population {10, 20, 30} (mean 20) and value 20. -/
theorem C2_normalization_witness :
    normalize_to_scale 20 (listMin [10, 20, 30]) (listMean [10, 20, 30])
      (listMax [10, 20, 30]) = 50 :=
  (C2_normalization_engine [10, 20, 30] 20
    (by norm_num [listMin, listMean, listMax])
    (by norm_num [listMin, listMean, listMax])
    (by norm_num [listMin, listMean, listMax])
    (by norm_num [listMin, listMean, listMax])).2.2.2.1
    (by norm_num [listMean])

/-- C3 counterexample: pandas `rank(ascending=False)` defaults to
`method='average'` (fractional ranking), not standard competition ranking:
two subjects tied for the best value each receive rank 3/2, not rank 1; and
in a three-way tie for best the displayed `int(rank)` is 2, not 1. -/
theorem C3_ranking_counterexample :
    rankOf [some 30, some 30, some 20] (some 30) = some (3 / 2) ∧
    (3 / 2 : ℚ) ≠ 1 ∧
    displayedRank (rankDesc [some 10, some 10, some 10] 10) = 2 ∧
    (2 : ℤ) ≠ 1 := by
  refine ⟨?_, by norm_num, ?_, by norm_num⟩
  · norm_num [rankOf, rankDesc, List.countP_cons, List.countP_nil, List.filterMap_cons]
  · have h : rankDesc [some 10, some 10, some 10] 10 = 2 := by
      norm_num [rankDesc, List.countP_cons, List.countP_nil, List.filterMap_cons]
    rw [h]
    norm_num [displayedRank]

/-- C3 amended: the Ranking Engine assigns rank 1 to the subject holding a
unique highest value (descending order), and ties follow the pandas default
fractional (average) ranking: two subjects tied for the best value each
receive rank 1.5 (displayed as 1 after `int` truncation), and the subject
with the next distinct value receives rank 3, not 2; with all-distinct
values {30, 20, 10} the ranks are 1, 2, 3 and the reported population size
is 3. -/
theorem C3_ranking_amended (pop : List (Option ℚ)) (m : ℚ)
    (hmem : some m ∈ pop)
    (hmax : ∀ w ∈ pop.filterMap id, w ≤ m)
    (huniq : (pop.filterMap id).countP (fun w => decide (w = m)) = 1) :
    rankOf pop (some m) = some 1 ∧
    (rankOf [some 30, some 30, some 20] (some 30) = some (3 / 2) ∧
     displayedRank (3 / 2) = 1 ∧
     rankOf [some 30, some 30, some 20] (some 20) = some 3) ∧
    (rankOf [some 30, some 20, some 10] (some 30) = some 1 ∧
     rankOf [some 30, some 20, some 10] (some 20) = some 2 ∧
     rankOf [some 30, some 20, some 10] (some 10) = some 3 ∧
     ([some 30, some 20, some 10] : List (Option ℚ)).length = 3) := by
  have hg : (pop.filterMap id).countP (fun w => decide (m < w)) = 0 := by
    rw [List.countP_eq_zero]
    intro a ha
    simpa using not_lt.2 (hmax a ha)
  have hr : rankDesc pop m = 1 := by
    unfold rankDesc
    rw [hg, huniq]
    norm_num
  refine ⟨by simp [rankOf, hr], ⟨?_, ?_, ?_⟩, ?_, ?_, ?_, rfl⟩
  · norm_num [rankOf, rankDesc, List.countP_cons, List.countP_nil, List.filterMap_cons]
  · norm_num [displayedRank]
  · norm_num [rankOf, rankDesc, List.countP_cons, List.countP_nil, List.filterMap_cons]
  · norm_num [rankOf, rankDesc, List.countP_cons, List.countP_nil, List.filterMap_cons]
  · norm_num [rankOf, rankDesc, List.countP_cons, List.countP_nil, List.filterMap_cons]
  · norm_num [rankOf, rankDesc, List.countP_cons, List.countP_nil, List.filterMap_cons]

/-- Witness for C3's amended theorem on the population {30, 20, 10} with
unique maximum 30. -/
theorem C3_ranking_witness :
    rankOf [some 30, some 20, some 10] (some 30) = some 1 :=
  (C3_ranking_amended [some 30, some 20, some 10] 30 (by simp)
    (by intro w hw; simp at hw; rcases hw with h | h | h <;> norm_num [h])
    (by norm_num [List.countP_cons, List.countP_nil, List.filterMap_cons])).1

/-- C4: the classification CASE expression evaluates its rules in order and
returns the label of the first matching rule, falling through to the default
label when no rule matches; a subject satisfying both rule 1 and rule 2
receives rule 1's label. -/
theorem C4_classification_first_match (s : CandidateRow) :
    (strugglingRule s = true →
      g_league_category s = "NBA Struggling / G-League Potential") ∧
    (strugglingRule s = false → wellRoundedRule s = true →
      g_league_category s = "Well-Rounded Average") ∧
    (strugglingRule s = false → wellRoundedRule s = false →
      g_league_category s = "Not G-League Target") ∧
    (strugglingRule s = true → wellRoundedRule s = true →
      g_league_category s = "NBA Struggling / G-League Potential") := by
  unfold g_league_category
  refine ⟨fun h1 => by simp [h1], fun h1 h2 => by simp [h1, h2],
    fun h1 h2 => by simp [h1, h2], fun h1 h2 => by simp [h1]⟩

/-- Witness for C4: a subject with all three volume percentiles equal to 25
and true-shooting percentile 50 satisfies rule 1 (25 is in [0,25]) and
rule 2 (every percentile is in [25,75]) simultaneously, and is labelled with
rule 1's label. -/
theorem C4_classification_witness :
    strugglingRule ⟨25, 25, 25, 50, "Free Agent", 25⟩ = true ∧
    wellRoundedRule ⟨25, 25, 25, 50, "Free Agent", 25⟩ = true ∧
    g_league_category ⟨25, 25, 25, 50, "Free Agent", 25⟩ =
      "NBA Struggling / G-League Potential" := by
  have h1 : strugglingRule ⟨25, 25, 25, 50, "Free Agent", 25⟩ = true := by
    norm_num [strugglingRule, sqlBetween, availableStatuses]
  have h2 : wellRoundedRule ⟨25, 25, 25, 50, "Free Agent", 25⟩ = true := by
    norm_num [wellRoundedRule, sqlBetween, availableStatuses]
  exact ⟨h1, h2, (C4_classification_first_match ⟨25, 25, 25, 50, "Free Agent", 25⟩).2.2.2 h1 h2⟩

/-- C5 counterexample: in the population {10, 10} both subjects hold the
maximum value, yet each receives percentile 0, not
100 × (size − 1) / size = 50: the claim's formula for "every subject holding
the maximum value" fails when the maximum is tied. -/
theorem C5_percentile_counterexample :
    percentileOf [some 10, some 10] (some 10) = some 0 ∧
    (0 : ℚ) ≠ 100 * (2 - 1) / 2 := by
  constructor
  · norm_num [percentileOf, serLt, List.countP_cons, List.countP_nil]
  · norm_num

/-- C5 amended: for every non-empty population with no null values and every
member subject, the percentile output lies in [0,100] and is never exactly
100 (for any n, hence in particular whenever n ≠ 1) — tied-maximum
populations included; and every subject holding a UNIQUE maximum value
receives exactly 100 × (n − 1) / n. -/
theorem C5_percentile_amended (pop : List (Option ℚ)) (v : ℚ)
    (hne : pop ≠ []) (hnn : ∀ x ∈ pop, x ≠ none)
    (hmem : some v ∈ pop) :
    (∃ p, percentileOf pop (some v) = some p ∧ 0 ≤ p ∧ p ≤ 100) ∧
    (∀ m : ℚ, (∀ w ∈ pop.filterMap id, w ≤ m) →
      (pop.filterMap id).countP (fun w => decide (w = m)) = 1 →
      percentileOf pop (some m) =
        some (100 * ((pop.length : ℚ) - 1) / (pop.length : ℚ))) ∧
    percentileOf pop (some v) ≠ some 100 := by
  have npos : 0 < pop.length := List.length_pos.2 hne
  have hemp : pop.isEmpty = false := by
    cases pop with
    | nil => exact absurd rfl hne
    | cons a l => rfl
  have nQ : (0 : ℚ) < (pop.length : ℚ) := by exact_mod_cast npos
  have hcle : (pop.countP (fun w => serLt w (some v)) : ℚ) ≤ (pop.length : ℚ) := by
    exact_mod_cast List.countP_le_length _
  refine ⟨⟨((pop.countP (fun w => serLt w (some v)) : ℚ) / (pop.length : ℚ)) * 100,
      ?_, ?_, ?_⟩, ?_, ?_⟩
  · simp [percentileOf, hemp]
  · exact mul_nonneg (div_nonneg (Nat.cast_nonneg _) nQ.le) (by norm_num)
  · have hd : (pop.countP (fun w => serLt w (some v)) : ℚ) / (pop.length : ℚ) ≤ 1 :=
      (div_le_one nQ).2 hcle
    nlinarith
  · intro m hmax huniq
    have hcnt : pop.countP (fun w => serLt w (some m)) = pop.length - 1 := by
      rw [countP_serLt_filterMap]
      have hsum := countP_lt_add_countP_eq (pop.filterMap id) m hmax
      rw [huniq] at hsum
      have hlen := length_filterMap_of_nonnull pop hnn
      omega
    simp only [percentileOf, hemp, Bool.false_eq_true, if_false, hcnt]
    congr 1
    rw [Nat.cast_sub (by omega)]
    push_cast
    field_simp
    ring
  · have hclt : pop.countP (fun w => serLt w (some v)) < pop.length :=
      countP_lt_self_length pop v hmem
    have hcltQ : (pop.countP (fun w => serLt w (some v)) : ℚ) < (pop.length : ℚ) := by
      exact_mod_cast hclt
    have hd : (pop.countP (fun w => serLt w (some v)) : ℚ) / (pop.length : ℚ) < 1 :=
      (div_lt_one nQ).2 hcltQ
    simp only [percentileOf, hemp, Bool.false_eq_true, if_false]
    intro h
    have h100 := Option.some.inj h
    nlinarith

/-- Witness for C5's amended theorem on the population {10, 20, 30} with
unique maximum 30: it receives 100 × (3 − 1) / 3 = 200/3 ≈ 66.7, not 100. -/
theorem C5_percentile_witness :
    percentileOf [some 10, some 20, some 30] (some 30) = some (200 / 3) :=
  (((C5_percentile_amended [some 10, some 20, some 30] 30 (by simp) (by simp)
    (by simp)).2.1 30
    (by intro w hw; simp at hw; rcases hw with h | h | h <;> norm_num [h])
    (by norm_num [List.countP_cons, List.countP_nil, List.filterMap_cons]))).trans
    (by norm_num)

/-- C6 counterexample: in the percentile computation
`(league_stats[col] < v).mean() * 100`, a null member IS counted in the
denominator (the boolean mean divides by the full column length), so adding
a null member changes another subject's percentile (here from 50 to 100/3);
and a subject whose own value is null silently receives percentile 0, not a
signaled undefined result. -/
theorem C6_null_handling_counterexample :
    percentileOf [some 10, some 20] (some 20) = some 50 ∧
    percentileOf [some 10, none, some 20] (some 20) = some (100 / 3) ∧
    (some (100 / 3) : Option ℚ) ≠ some 50 ∧
    percentileOf [some 10, some 20] none = some 0 := by
  refine ⟨?_, ?_, ?_, ?_⟩
  · norm_num [percentileOf, serLt, List.countP_cons, List.countP_nil]
  · norm_num [percentileOf, serLt, List.countP_cons, List.countP_nil]
  · simp only [ne_eq, Option.some.injEq]
    norm_num
  · norm_num [percentileOf, serLt, List.countP_cons, List.countP_nil]

/-- C6 amended: the ranking computation (pandas `rank`, `na_option='keep'`)
does exclude nulls — a null member changes no non-null subject's rank, and a
null subject receives an undefined (`none`) rank — but the percentile
computation counts a null member in its denominator (never its numerator),
lowering every other subject's percentile, and silently assigns percentile 0
to a subject whose own value is null. -/
theorem C6_null_handling_amended (pop : List (Option ℚ)) (v : ℚ) (hne : pop ≠ []) :
    rankOf (none :: pop) (some v) = rankOf pop (some v) ∧
    rankOf pop none = none ∧
    percentileOf pop none = some 0 ∧
    percentileOf (none :: pop) (some v) =
      some (((pop.countP (fun w => serLt w (some v)) : ℚ) /
        ((pop.length : ℚ) + 1)) * 100) := by
  have hemp : pop.isEmpty = false := by
    cases pop with
    | nil => exact absurd rfl hne
    | cons a l => rfl
  refine ⟨?_, rfl, ?_, ?_⟩
  · simp [rankOf, rankDesc, List.filterMap_cons]
  · have h0 : pop.countP (fun w => serLt w none) = 0 := by
      rw [List.countP_eq_zero]
      intro a ha
      simp [serLt_none_right]
    simp [percentileOf, hemp, h0]
  · have hx : serLt none (some v) = false := rfl
    have hcons : List.countP (fun w => serLt w (some v)) (none :: pop) =
        List.countP (fun w => serLt w (some v)) pop := by
      simp [List.countP_cons, hx]
    simp only [percentileOf, List.isEmpty_cons, Bool.false_eq_true, if_false, hcons,
      List.length_cons, Option.some.injEq]
    push_cast
    ring

/-- Witness for C6's amended theorem: prepending a null member to the
population {10, 20} leaves the rank of the subject with value 20 unchanged. -/
theorem C6_null_handling_witness :
    rankOf [none, some 10, some 20] (some 20) = rankOf [some 10, some 20] (some 20) :=
  (C6_null_handling_amended [some 10, some 20] 20 (by simp)).1

/-- C7: on the empty population every engine yields its explicit
empty/undefined result — the percentile boolean-mean and the radar
aggregates are NaN (modelled `none`), the rank column and the classified
result set are empty — rather than raising an unhandled division-by-zero
error (the source's guards and NaN propagation never divide by a live
zero). -/
theorem C7_empty_population (v : Option ℚ) (p : StatRow) :
    percentileOf [] v = none ∧
    radarValues p [] = none ∧
    rankColumnDesc [] = [] ∧
    classifyAll [] = [] :=
  ⟨rfl, rfl, rfl, rfl⟩

/-- C8: for a population consisting of a single row, min = mean = max for
every column, and all five radar dimensions resolve to exactly 50 (the
`max == min` and `avg == min` guards fire instead of dividing by zero). -/
theorem C8_singleton_normalization (p : StatRow) :
    radarValues p [p] = some [50, 50, 50, 50, 50] := by
  have h1 : scoringScore p [p] = 50 := by
    simp [scoringScore, listMin_singleton, listMax_singleton, listMean_singleton,
      normalize_self_anchors]
  have h2 : reboundingScore p [p] = 50 := by
    simp [reboundingScore, listMin_singleton, listMax_singleton, listMean_singleton,
      normalize_self_anchors]
  have h3 : playmakingScore p [p] = 50 := by
    simp [playmakingScore, listMin_singleton, listMax_singleton, listMean_singleton,
      normalize_self_anchors]
  have h4 : availabilityScore p [p] = 50 := by
    simp [availabilityScore, availabilityMaxAnchor, listMin_singleton, listMax_singleton,
      listMean_singleton, normalize_self_anchors]
  have h5 : productionScore p [p] = 50 := by
    simp [productionScore, listMin_singleton, listMax_singleton, listMean_singleton,
      normalize_self_anchors]
  simp [radarValues, h1, h2, h3, h4, h5]

/-- C9: `normalize_to_scale` applies no clamping to [0,100]: with anchors
min < mean < max, a value above the max anchor scores strictly above 100 and
a value below the min anchor scores strictly below 0; the availability
dimension's max anchor is `min(league max games, 82)`, so a player whose
games_played exceeds that capped anchor (with anchors in order) receives an
availability score above 100. -/
theorem C9_no_clamping (mn μ mx v : ℚ) (p : StatRow) (league : List StatRow)
    (h1 : mn < μ) (h2 : μ < mx) :
    (mx < v → 100 < normalize_to_scale v mn μ mx) ∧
    (v < mn → normalize_to_scale v mn μ mx < 0) ∧
    availabilityMaxAnchor league = min (listMax (league.map StatRow.games_played)) 82 ∧
    (listMin (league.map StatRow.games_played) <
        listMean (league.map StatRow.games_played) →
      listMean (league.map StatRow.games_played) < availabilityMaxAnchor league →
      availabilityMaxAnchor league < p.games_played →
      100 < availabilityScore p league) := by
  refine ⟨fun hv => normalize_gt_100 v mn μ mx h1 h2 hv,
    fun hv => normalize_neg v mn μ mx h1 h2 hv, rfl, fun ha hb hc => ?_⟩
  simpa [availabilityScore] using
    normalize_gt_100 p.games_played (listMin (league.map StatRow.games_played))
      (listMean (league.map StatRow.games_played)) (availabilityMaxAnchor league) ha hb hc

/-- Witness for C9: with anchors 0 < 1 < 2, the value 3 scores 150 > 100 and
the value −1 scores below 0; in a league with games played {50, 60, 94} the
capped availability anchor is 82 and the player with 94 games scores
1000/7 ≈ 142.9 > 100. -/
theorem C9_no_clamping_witness :
    100 < normalize_to_scale 3 0 1 2 ∧
    normalize_to_scale (-1) 0 1 2 < 0 ∧
    100 < availabilityScore ⟨0, 0, 0, 94, 0, 0, 0⟩
      [⟨0, 0, 0, 50, 0, 0, 0⟩, ⟨0, 0, 0, 60, 0, 0, 0⟩, ⟨0, 0, 0, 94, 0, 0, 0⟩] := by
  refine ⟨(C9_no_clamping 0 1 2 3 ⟨0, 0, 0, 94, 0, 0, 0⟩ [] (by norm_num) (by norm_num)).1
      (by norm_num),
    (C9_no_clamping 0 1 2 (-1) ⟨0, 0, 0, 94, 0, 0, 0⟩ [] (by norm_num) (by norm_num)).2.1
      (by norm_num),
    (C9_no_clamping 0 1 2 3 ⟨0, 0, 0, 94, 0, 0, 0⟩
      [⟨0, 0, 0, 50, 0, 0, 0⟩, ⟨0, 0, 0, 60, 0, 0, 0⟩, ⟨0, 0, 0, 94, 0, 0, 0⟩]
      (by norm_num) (by norm_num)).2.2.2 ?_ ?_ ?_⟩
  · norm_num [listMin, listMean, listMax]
  · norm_num [listMin, listMean, listMax, availabilityMaxAnchor]
  · norm_num [listMax, availabilityMaxAnchor]

lemma rheInt_abs_le (x : ℚ) : |(rheInt x : ℚ) - x| ≤ 1 / 2 := by
  unfold rheInt
  have h0 : (⌊x⌋ : ℚ) ≤ x := Int.floor_le x
  have h1 : x < ⌊x⌋ + 1 := Int.lt_floor_add_one x
  split_ifs with ha hb hc <;>
    · rw [abs_le]
      constructor <;> push_cast <;> linarith

lemma roundTo_mul_int (d : ℕ) (x : ℚ) :
    roundTo d x * 10 ^ d = (rheInt (x * 10 ^ d) : ℚ) := by
  unfold roundTo
  have hp : (10 : ℚ) ^ d ≠ 0 := by positivity
  field_simp

lemma roundTo_abs_le (d : ℕ) (x : ℚ) : |roundTo d x - x| ≤ 1 / 2 / 10 ^ d := by
  unfold roundTo
  have hp : (0 : ℚ) < 10 ^ d := by positivity
  have he : (rheInt (x * 10 ^ d) : ℚ) / 10 ^ d - x =
      ((rheInt (x * 10 ^ d) : ℚ) - x * 10 ^ d) / 10 ^ d := by
    field_simp
    ring
  rw [he, abs_div, abs_of_pos hp]
  gcongr
  exact rheInt_abs_le (x * 10 ^ d)

/-- C10: the CSV export rounds each numeric statistic field to its fixed
decimal precision — minutes, points, rebounds and assists to one decimal
place, true-shooting percentage to three — and each exported value is
exactly the (ties-to-even) rounding of the original: a multiple of the
corresponding power of ten within half a unit in the last place.  (The
percentile columns are rounded to whole numbers and the remaining numeric
column, Age, is already an integer and passes through unchanged.) -/
theorem C10_export_rounding (r : DisplayRow) :
    ((exportRound r).mp = roundTo 1 r.mp ∧
     (exportRound r).pts = roundTo 1 r.pts ∧
     (exportRound r).trb = roundTo 1 r.trb ∧
     (exportRound r).ast = roundTo 1 r.ast ∧
     (exportRound r).ts_pct = roundTo 3 r.ts_pct ∧
     (exportRound r).Age = r.Age) ∧
    ((∃ z : ℤ, (exportRound r).mp * 10 ^ 1 = z) ∧
     (∃ z : ℤ, (exportRound r).pts * 10 ^ 1 = z) ∧
     (∃ z : ℤ, (exportRound r).trb * 10 ^ 1 = z) ∧
     (∃ z : ℤ, (exportRound r).ast * 10 ^ 1 = z) ∧
     (∃ z : ℤ, (exportRound r).ts_pct * 10 ^ 3 = z)) ∧
    (|(exportRound r).mp - r.mp| ≤ 1 / 2 / 10 ^ 1 ∧
     |(exportRound r).pts - r.pts| ≤ 1 / 2 / 10 ^ 1 ∧
     |(exportRound r).trb - r.trb| ≤ 1 / 2 / 10 ^ 1 ∧
     |(exportRound r).ast - r.ast| ≤ 1 / 2 / 10 ^ 1 ∧
     |(exportRound r).ts_pct - r.ts_pct| ≤ 1 / 2 / 10 ^ 3) :=
  ⟨⟨rfl, rfl, rfl, rfl, rfl, rfl⟩,
   ⟨⟨rheInt (r.mp * 10 ^ 1), roundTo_mul_int 1 r.mp⟩,
    ⟨rheInt (r.pts * 10 ^ 1), roundTo_mul_int 1 r.pts⟩,
    ⟨rheInt (r.trb * 10 ^ 1), roundTo_mul_int 1 r.trb⟩,
    ⟨rheInt (r.ast * 10 ^ 1), roundTo_mul_int 1 r.ast⟩,
    ⟨rheInt (r.ts_pct * 10 ^ 3), roundTo_mul_int 3 r.ts_pct⟩⟩,
   roundTo_abs_le 1 r.mp, roundTo_abs_le 1 r.pts, roundTo_abs_le 1 r.trb,
   roundTo_abs_le 1 r.ast, roundTo_abs_le 3 r.ts_pct⟩
